import Mathlib

/-!
Shallow embedding of the Currents jest reporter
(`src/packages/jest-reporter/src/reporter.ts`).

The reporter aggregates jest lifecycle events (run start, file start, case
start, case result, file result) into per-spec report records.  We embed the
data model (`SpecInfo`, `TestCase`, the `Deferred` gate tables), the pure
status reducers (`statusToCurrentsStatus`, `getRawTestStatus`, the inline
`isFlaky` computation), the key derivations (`getSpecKey`, `getTestCaseKey`)
and the stateful handlers as an explicit step function on a reporter state.

Statuses are modelled as the strings they are in the TypeScript source: a
jest `TestCaseResult["status"]` is one of `"passed" | "failed" | "skipped" |
"pending" | "todo" | "disabled" | "focused"` but the reducers are total on
`String` exactly as the JS functions are (their `default` / `otherwise`
branches).  The `TestState` and `TestExpectedStatus` enums are string-valued
in TS; we keep them as inductives plus their string values, so that the
composition `getTestCaseStatus = statusToCurrentsStatus ∘ getRawTestStatus`
(which in JS feeds one enum's string value into the other function) is
embedded exactly.

JavaScript property access on `undefined` (e.g. awaiting a gate that was
never created) is made explicit as a `jsError` outcome, and `await` on an
existing but unresolved gate as a `blocked` outcome carrying the mutations
performed before the suspension point.
-/

namespace CurrentsReporter

/-- Enum `TestState` from reporter.ts (string-valued in TS). -/
inductive TestState where
  | Failed
  | Passed
  | Pending
  | Skipped
deriving DecidableEq, Repr

/-- The string value of a `TestState` enum member. -/
def TestState.str : TestState → String
  | .Failed => "failed"
  | .Passed => "passed"
  | .Pending => "pending"
  | .Skipped => "skipped"

/-- Enum `TestExpectedStatus` from reporter.ts (string-valued in TS). -/
inductive TestExpectedStatus where
  | Passed
  | Failed
  | TimedOut
  | Skipped
  | Interrupted
deriving DecidableEq, Repr

/-- The string value of a `TestExpectedStatus` enum member. -/
def TestExpectedStatus.str : TestExpectedStatus → String
  | .Passed => "passed"
  | .Failed => "failed"
  | .TimedOut => "timedOut"
  | .Skipped => "skipped"
  | .Interrupted => "interrupted"

/-- The fields of a jest `TestCaseResult` / `AssertionResult` that the
reporter reads.  `status` is the raw jest status string. -/
structure TestCaseResult where
  status : String
  invocations : Option Nat
  duration : Option Nat
  failureMessages : List String
deriving DecidableEq, Repr

/-- Worker identity pair `workerIndex` / `parallelIndex` (`type WorkerInfo`). -/
structure WorkerInfo where
  workerIndex : Int
  parallelIndex : Int
deriving DecidableEq, Repr

/-- Function `getWorker(skipped?)`: worker index is `-1` when skipped, otherwise the
ambient `JEST_WORKER_ID` environment value (passed in explicitly here). -/
def getWorker (envWorkerId : Int) (skipped : Bool) : WorkerInfo :=
  let workerIndex : Int := if skipped then -1 else envWorkerId
  { workerIndex := workerIndex, parallelIndex := workerIndex }

/-- Function `statusToCurrentsStatus`: jest status string → coarse `TestState`; any
string outside the handled cases (e.g. `"focused"`) falls to the `default:`
branch, `TestState.Failed`. -/
def statusToCurrentsStatus (testStatus : String) : TestState :=
  if testStatus = "passed" then TestState.Passed
  else if testStatus = "failed" then TestState.Failed
  else if testStatus = "skipped" ∨ testStatus = "todo" ∨ testStatus = "pending" ∨
      testStatus = "disabled" then TestState.Pending
  else TestState.Failed

/-- Function `getRawTestStatus`: if every attempt has the same status string, map it
through the `ts-pattern` match (disabled/skipped/todo/pending → Skipped,
passed → Passed, failed → Failed, `otherwise` → Failed); a mix of statuses
is `Failed`.  An empty list hits `match(undefined).otherwise`, i.e. Failed. -/
def getRawTestStatus (testCaseResults : List TestCaseResult) : TestExpectedStatus :=
  let allStatuses := testCaseResults.map (·.status)
  match allStatuses with
  | [] => TestExpectedStatus.Failed
  | s0 :: rest =>
    if (s0 :: rest).all (fun s => decide (s = s0)) then
      if s0 = "disabled" ∨ s0 = "skipped" ∨ s0 = "todo" ∨ s0 = "pending" then
        TestExpectedStatus.Skipped
      else if s0 = "passed" then TestExpectedStatus.Passed
      else if s0 = "failed" then TestExpectedStatus.Failed
      else TestExpectedStatus.Failed
    else
      TestExpectedStatus.Failed

/-- Composition `getTestCaseStatus = flowRight(statusToCurrentsStatus, getRawTestStatus)`:
the `TestExpectedStatus` string value is fed into `statusToCurrentsStatus`. -/
def getTestCaseStatus (testCaseResults : List TestCaseResult) : TestState :=
  statusToCurrentsStatus (getRawTestStatus testCaseResults).str

/-- Function `getAttempt(result) = result?.invocations ?? 1`. -/
def getAttempt (result : TestCaseResult) : Nat :=
  result.invocations.getD 1

/-- The inline flakiness computation from `onTestFileResult`:
`testCase.result.length > 1 && testCase.result[last].status === TestState.Passed`. -/
def isFlaky (results : List TestCaseResult) : Bool :=
  decide (results.length > 1) &&
    (match results.getLast? with
     | some r => decide (r.status = TestState.Passed.str)
     | none => false)

/-- Function `getSpecKey(projectId, specName)`. -/
def getSpecKey (projectId specName : String) : String :=
  projectId ++ ":" ++ specName

/-- Function `getTestCaseKey(projectId, specName, testId)`. -/
def getTestCaseKey (projectId specName testId : String) : String :=
  projectId ++ ":" ++ specName ++ ":" ++ testId

/-- A `TestCase` record (`type TestCase` in reporter.ts).  `mode` is
`Circus.BlockMode` (`void | "skip" | "only" | "todo"`): `none` stands for the
`void` case.  The `config` field (only used for error formatting) is omitted. -/
structure TestCase where
  id : String
  timestamps : List Nat
  title : List String
  mode : Option String
  result : List TestCaseResult
  worker : WorkerInfo
deriving DecidableEq, Repr

/-- A `SpecInfo` record.  `testCaseList` is a JS object, modelled as an
insertion-ordered association list (first binding for a key wins on lookup;
assignment updates in place, preserving insertion order, like JS objects). -/
structure SpecInfo where
  projectId : String
  specName : String
  testCaseList : List (String × TestCase)
  specResult : Option Unit
  worker : WorkerInfo
deriving DecidableEq, Repr

/-- JS object property read: `m[k]`. -/
def objGet {α : Type} (m : List (String × α)) (k : String) : Option α :=
  match m with
  | [] => none
  | (k2, v) :: rest => if k2 = k then some v else objGet rest k

/-- JS object property write: `m[k] = v` (updates in place if the key exists,
appends otherwise — JS objects keep the original insertion position). -/
def objSet {α : Type} (m : List (String × α)) (k : String) (v : α) :
    List (String × α) :=
  match m with
  | [] => [(k, v)]
  | (k2, v2) :: rest =>
    if k2 = k then (k, v) :: rest else (k2, v2) :: objSet rest k v

/-- Values `Object.values(m)` in insertion order. -/
def objValues {α : Type} (m : List (String × α)) : List α :=
  m.map (·.2)

/-- Observable history of the `Deferred` slot for one key: how many `Deferred`
objects were ever assigned to the slot, how many `resolve()` calls were made
on them in total, and whether the current object is resolved.  A slot with
`createCount = 0` is a key absent from the JS map (`undefined`). -/
structure GateStat where
  createCount : Nat
  resolveCount : Nat
  resolved : Bool
deriving DecidableEq, Repr

/-- An absent key (`undefined` slot). -/
def GateStat.initial : GateStat := ⟨0, 0, false⟩

/-- Assignment `map[key] = new Deferred()`: replaces the slot's object by a
fresh, unresolved one. -/
def GateStat.fresh (g : GateStat) : GateStat :=
  ⟨g.createCount + 1, g.resolveCount, false⟩

/-- Call `map[key].resolve()`. -/
def GateStat.resolveIt (g : GateStat) : GateStat :=
  ⟨g.createCount, g.resolveCount + 1, true⟩

/-- One of the reporter's keyed `Deferred` maps. -/
def GateMap := String → GateStat

/-- Update a gate map at one key. -/
def gmUpdate (m : GateMap) (k : String) (f : GateStat → GateStat) : GateMap :=
  fun k2 => if k2 = k then f (m k) else m k2

/-- One report attempt row (`attempts` array element).  The TS fields `_s`
and `_t`-style internals are named `sRaw` here; `steps`, `stdout`, `errors`
and `error` (derived via the external `lib` error formatters) are omitted. -/
structure AttemptEntry where
  sRaw : TestState
  attempt : Nat
  workerIndex : Int
  parallelIndex : Int
  startTime : Nat
  duration : Nat
  status : TestExpectedStatus
  stderr : List String
deriving DecidableEq, Repr

/-- One report test row (element of the `tests` array).  The TS `_t` field is
named `tRaw`; `location.file` is kept as `locationFile`. -/
structure TestEntry where
  tRaw : Nat
  testId : String
  title : List String
  state : TestState
  isFlaky : Bool
  expectedStatus : TestExpectedStatus
  timeout : Nat
  locationFile : String
  retries : Nat
  attempts : List AttemptEntry
deriving DecidableEq, Repr

/-- Block `results.stats` of an `InstanceReport`. -/
structure StatsBlock where
  suites : Nat
  tests : Nat
  passes : Nat
  pending : Nat
  skipped : Nat
  failures : Nat
  flaky : Nat
  wallClockStartedAt : Nat
  wallClockEndedAt : Nat
  wallClockDuration : Int
deriving DecidableEq, Repr

/-- The `results` block of an `InstanceReport`. -/
structure ResultsBlock where
  stats : StatsBlock
  tests : List TestEntry
deriving DecidableEq, Repr

/-- The per-spec report artifact (`InstanceReport`).  Times are kept as the
underlying epoch numbers (the ISO rendering is presentation only). -/
structure InstanceReport where
  groupId : String
  spec : String
  worker : WorkerInfo
  startTime : Nat
  results : ResultsBlock
deriving DecidableEq, Repr

/-- One element of `testResult.testResults` as consumed by
`onTestFileResult`: the stable test id and title are derived by external
`lib` helpers from the assertion result, so the event carries them directly. -/
structure DeclaredTest where
  testId : String
  title : List String
  r : TestCaseResult
deriving DecidableEq, Repr

/-- The fields of a jest file-level `TestResult` the reporter reads. -/
structure FileResult where
  testResults : List DeclaredTest
  numPassingTests : Nat
  numPendingTests : Nat
  numTodoTests : Nat
  numFailingTests : Nat
  perfStart : Nat
  perfEnd : Nat
deriving DecidableEq, Repr

/-- The `tests` array element built in `onTestFileResult` for one
`TestCase`. -/
def buildTestEntry (specStart : Nat) (specName : String) (tc : TestCase) :
    TestEntry :=
  { tRaw := tc.timestamps.head?.getD specStart,
    testId := tc.id,
    title := tc.title,
    state := getTestCaseStatus tc.result,
    isFlaky := isFlaky tc.result,
    expectedStatus :=
      (match tc.mode with
       | some m =>
         if ["skip", "todo"].contains m then TestExpectedStatus.Skipped
         else TestExpectedStatus.Passed
       | none => TestExpectedStatus.Passed),
    timeout := 0,
    locationFile := specName,
    retries := tc.result.length + 1,
    attempts := tc.result.enum.map (fun p =>
      let index := p.1
      let result := p.2
      { sRaw := getTestCaseStatus [result],
        attempt := getAttempt result,
        workerIndex := tc.worker.workerIndex,
        parallelIndex := tc.worker.parallelIndex,
        startTime :=
          -- JS: `timestamps.length && timestamps[index] ? timestamps[index] : startTime`
          -- (truthiness: a missing index or a 0 timestamp falls back)
          if tc.timestamps.length ≠ 0 ∧ (tc.timestamps.get? index).getD 0 ≠ 0 then
            (tc.timestamps.get? index).getD 0
          else specStart,
        duration := ((tc.result.get? index).bind (·.duration)).getD 0,
        status := getRawTestStatus [result],
        stderr := result.failureMessages }) }

/-- The `InstanceReport` assembled at the end of `onTestFileResult` from the
(settled) `SpecInfo` and the jest file-level result. -/
def buildInstanceReport (si : SpecInfo) (fr : FileResult) : InstanceReport :=
  let tests := (objValues si.testCaseList).map
    (buildTestEntry fr.perfStart si.specName)
  let flakyCount := (tests.filter (·.isFlaky)).length
  { groupId := si.projectId,
    spec := si.specName,
    worker := si.worker,
    startTime := fr.perfStart,
    results :=
      { stats :=
          { suites := 1,
            tests := fr.testResults.length,
            passes := fr.numPassingTests,
            pending := 0,
            skipped := fr.numPendingTests + fr.numTodoTests,
            failures := fr.numFailingTests,
            flaky := flakyCount,
            wallClockStartedAt := fr.perfStart,
            wallClockEndedAt := fr.perfEnd,
            wallClockDuration := (fr.perfEnd : Int) - (fr.perfStart : Int) },
        tests := tests } }

/-- The mutable fields of `CustomReporter` relevant to event aggregation.
Maps keyed by strings are total functions (`specInfo`, `projectBySpecMap`
return `none` for absent keys; gate maps return the `GateStat.initial`
slot).  `reports` logs the artifacts written by `onTestFileResult`, in
emission order.  `envWorkerId` is the ambient `JEST_WORKER_ID`. -/
structure RState where
  envWorkerId : Int
  specInfo : String → Option SpecInfo
  projectBySpecMap : String → Option String
  specsCount : Nat
  processedSpecsCount : Nat
  reportDirGate : GateStat
  specInfoDeferred : GateMap
  testCaseDeferred : GateMap
  resultsDeferred : GateMap
  reports : List InstanceReport

/-- Outcome of running one handler to completion from a state:
`ok` — ran to the end; `blocked` — suspended on an `await` of an existing but
unresolved gate (carrying the mutations made before the suspension point);
`jsError` — a TypeError from accessing `.promise` (or a property) of an
`undefined` map entry. -/
inductive HResult where
  | ok (s : RState)
  | blocked (s : RState)
  | jsError

/-- The state carried by an `ok` or `blocked` handler outcome. -/
def HResult.stateOf : HResult → Option RState
  | .ok s => some s
  | .blocked s => some s
  | .jsError => none

/-- Handler `onRunStart`: records the suite count, performs the report-directory I/O
(external, omitted) and resolves the run-level gate. -/
def onRunStart (s : RState) (numTotalTestSuites : Nat) : HResult :=
  HResult.ok
    { s with
      specsCount := numTotalTestSuites,
      reportDirGate := s.reportDirGate.resolveIt }

/-- Handler `onTestFileStart`: records the project for the spec, awaits the run-level
gate, then unconditionally installs a fresh `SpecInfo` (empty
`testCaseList`) and a fresh resolved per-spec gate. -/
def onTestFileStart (s : RState) (projectId specName : String) : HResult :=
  let s1 : RState :=
    { s with
      projectBySpecMap := fun n =>
        if n = specName then some projectId else s.projectBySpecMap n }
  if ¬ s1.reportDirGate.resolved then HResult.blocked s1
  else
    let specKey := getSpecKey projectId specName
    let s2 : RState :=
      { s1 with
        specInfo := fun k =>
          if k = specKey then
            some
              { projectId := projectId,
                specName := specName,
                testCaseList := [],
                specResult := none,
                worker := getWorker s1.envWorkerId false }
          else s1.specInfo k }
    HResult.ok
      { s2 with
        specInfoDeferred :=
          gmUpdate s2.specInfoDeferred specKey (fun g => g.fresh.resolveIt) }

/-- Handler `onTestCaseStart`: creates the `SpecInfo` inline (with a fresh resolved
per-spec gate) if file-start has not run yet; then either creates the
`TestCase` record with its first timestamp and a fresh resolved per-case
gate, or — repeat attempt — appends a timestamp to the existing record.
`now` stands for `new Date().getTime()` in the `startedAt ?? now` fallback.
This handler contains no `await` and cannot fail, so it returns the new
state directly. -/
def onTestCaseStart (s : RState) (specName testId : String)
    (startedAt : Option Nat) (title : List String) (mode : Option String)
    (now : Nat) : RState :=
  let projectId := (s.projectBySpecMap specName).getD "undefined"
  let specKey := getSpecKey projectId specName
  -- `if (!this.specInfo[specKey])` — onTestCaseStart before onTestFileStart
  let p : RState × SpecInfo :=
    match s.specInfo specKey with
    | some si => (s, si)
    | none =>
      let si : SpecInfo :=
        { projectId := projectId,
          specName := specName,
          testCaseList := [],
          specResult := none,
          worker := getWorker s.envWorkerId false }
      let s' : RState :=
        { s with
          specInfo := fun k => if k = specKey then some si else s.specInfo k,
          specInfoDeferred :=
            gmUpdate s.specInfoDeferred specKey (fun g => g.fresh.resolveIt) }
      (s', si)
  let s1 := p.1
  let si := p.2
  let testCaseKey := getTestCaseKey projectId specName testId
  match objGet si.testCaseList testCaseKey with
  | none =>
    let tc : TestCase :=
      { id := testId,
        timestamps := [startedAt.getD now],
        title := title,
        mode := mode,
        result := [],
        worker := getWorker s1.envWorkerId false }
    let si' := { si with testCaseList := objSet si.testCaseList testCaseKey tc }
    { s1 with
      specInfo := fun k => if k = specKey then some si' else s1.specInfo k,
      testCaseDeferred :=
        gmUpdate s1.testCaseDeferred testCaseKey (fun g => g.fresh.resolveIt) }
  | some tc =>
    let tc' := { tc with timestamps := tc.timestamps ++ [startedAt.getD now] }
    let si' := { si with testCaseList := objSet si.testCaseList testCaseKey tc' }
    { s1 with
      specInfo := fun k => if k = specKey then some si' else s1.specInfo k }

/-- Handler `onTestCaseResult`: awaits the per-spec gate (a TypeError if that map
entry is `undefined`), defensively creates-and-resolves the per-case gate if
case-start never fired, awaits it, synthesizes a skipped `TestCase` record if
none exists, appends the raw outcome to `result`, and installs a fresh
resolved per-(case,attempt) completion gate.  The synthesize-then-push pair
of JS assignments is fused into one `objSet` with the pushed result. -/
def onTestCaseResult (s : RState) (specName testId : String)
    (title : List String) (result : TestCaseResult) : HResult :=
  let projectId := (s.projectBySpecMap specName).getD "undefined"
  let specKey := getSpecKey projectId specName
  if (s.specInfoDeferred specKey).createCount = 0 then HResult.jsError
  else if ¬ (s.specInfoDeferred specKey).resolved then HResult.blocked s
  else
    let testCaseKey := getTestCaseKey projectId specName testId
    -- `if (!this.testCaseDeferred[testCaseKey])` — onTestCaseStart never ran
    let s1 : RState :=
      if (s.testCaseDeferred testCaseKey).createCount = 0 then
        { s with
          testCaseDeferred :=
            gmUpdate s.testCaseDeferred testCaseKey (fun g => g.fresh.resolveIt) }
      else s
    if ¬ (s1.testCaseDeferred testCaseKey).resolved then HResult.blocked s1
    else
      match s1.specInfo specKey with
      | none => HResult.jsError
      | some si =>
        let tc0 : TestCase :=
          match objGet si.testCaseList testCaseKey with
          | none =>
            { id := testId,
              timestamps := [],
              title := title,
              mode := some "skip",
              result := [],
              worker := getWorker s1.envWorkerId true }
          | some tc => tc
        let tc' := { tc0 with result := tc0.result ++ [result] }
        let si' :=
          { si with testCaseList := objSet si.testCaseList testCaseKey tc' }
        let s2 : RState :=
          { s1 with
            specInfo := fun k => if k = specKey then some si' else s1.specInfo k }
        HResult.ok
          { s2 with
            resultsDeferred :=
              gmUpdate s2.resultsDeferred testCaseKey (fun g => g.fresh.resolveIt) }

/-- The `Promise.all` loop body of `onTestFileResult`, run over every test
declared in the file-level result: synthesizes a skipped record holding the
declared result when no `TestCase` record exists; otherwise notes whether the
per-(case,attempt) completion gate is missing (`undefined` — TypeError on
`.promise`) or exists but is unresolved (the callback would suspend).  All
synchronous prefixes run before any rejection is observed, so synthesis for
every absent record happens regardless of later failures. -/
def settleDeclared (envWorkerId : Int) (projectId specName : String)
    (resultsGates : GateMap) :
    List (String × TestCase) → List DeclaredTest →
      List (String × TestCase) × Bool × Bool
  | tcl, [] => (tcl, false, false)
  | tcl, dt :: rest =>
    let testCaseKey := getTestCaseKey projectId specName dt.testId
    match objGet tcl testCaseKey with
    | none =>
      let tc : TestCase :=
        { id := dt.testId,
          timestamps := [],
          title := dt.title,
          mode := some "skip",
          result := [dt.r],
          worker := getWorker envWorkerId true }
      settleDeclared envWorkerId projectId specName resultsGates
        (objSet tcl testCaseKey tc) rest
    | some _ =>
      let g := resultsGates testCaseKey
      let out := settleDeclared envWorkerId projectId specName resultsGates tcl rest
      (out.1, (decide (g.createCount = 0) || out.2.1),
        ((!g.resolved) || out.2.2))

/-- Handler `onTestFileResult`: settles every declared test (see `settleDeclared`),
then builds the `InstanceReport`, appends it to the emission log and bumps
the processed-spec counter.  Accessing `this.specInfo[specKey].testCaseList`
when the spec was never started is a TypeError. -/
def onTestFileResult (s : RState) (specName : String) (fr : FileResult) :
    HResult :=
  let projectId := (s.projectBySpecMap specName).getD "undefined"
  let specKey := getSpecKey projectId specName
  match s.specInfo specKey with
  | none => HResult.jsError
  | some si =>
    let out := settleDeclared s.envWorkerId projectId specName
      s.resultsDeferred si.testCaseList fr.testResults
    let si1 := { si with testCaseList := out.1 }
    let s1 : RState :=
      { s with
        specInfo := fun k => if k = specKey then some si1 else s.specInfo k }
    if out.2.1 then HResult.jsError
    else if out.2.2 then HResult.blocked s1
    else
      HResult.ok
        { s1 with
          reports := s1.reports ++ [buildInstanceReport si1 fr],
          processedSpecsCount := s1.processedSpecsCount + 1 }

/-- A runner lifecycle event, carrying the values the handlers read (the
stable ids and titles produced by the external `lib` helpers are event
data). -/
inductive JEvent where
  | runStart (numTotalTestSuites : Nat)
  | fileStart (projectId specName : String)
  | caseStart (specName testId : String) (startedAt : Option Nat)
      (title : List String) (mode : Option String) (now : Nat)
  | caseResult (specName testId : String) (title : List String)
      (result : TestCaseResult)
  | fileResult (specName : String) (fr : FileResult)
deriving DecidableEq

/-- Dispatch one event to its handler. -/
def stepEvent (s : RState) : JEvent → HResult
  | .runStart n => onRunStart s n
  | .fileStart projectId specName => onTestFileStart s projectId specName
  | .caseStart specName testId startedAt title mode now =>
    HResult.ok (onTestCaseStart s specName testId startedAt title mode now)
  | .caseResult specName testId title result =>
    onTestCaseResult s specName testId title result
  | .fileResult specName fr => onTestFileResult s specName fr

/-- The reporter's state after construction: empty maps, and the run-level
gate already created (in the field initializer) but unresolved. -/
def initState (envWorkerId : Int) : RState :=
  { envWorkerId := envWorkerId,
    specInfo := fun _ => none,
    projectBySpecMap := fun _ => none,
    specsCount := 0,
    processedSpecsCount := 0,
    reportDirGate := ⟨1, 0, false⟩,
    specInfoDeferred := fun _ => GateStat.initial,
    testCaseDeferred := fun _ => GateStat.initial,
    resultsDeferred := fun _ => GateStat.initial,
    reports := [] }

/-- Run a sequence of events, requiring every handler to complete (`ok`). -/
def runEvents (s : RState) : List JEvent → Option RState
  | [] => some s
  | e :: rest =>
    match stepEvent s e with
    | .ok s' => runEvents s' rest
    | _ => none

/-- States the reporter can be in: the initial state, and anything reachable
through completed handlers or through the published partial state of a
suspended (blocked) handler. -/
inductive Reach : RState → Prop where
  | init (w : Int) : Reach (initState w)
  | stepOk {s s' : RState} {e : JEvent} :
      Reach s → stepEvent s e = HResult.ok s' → Reach s'
  | stepBlocked {s s' : RState} {e : JEvent} :
      Reach s → stepEvent s e = HResult.blocked s' → Reach s'

/-! ### Spec-modelled identity derivation -/

/-- Per-attempt metadata the runner hands to the id derivation: the stable
title chain plus the attempt-varying invocation counter. -/
structure AttemptMeta where
  titlePath : List String
  invocations : Nat
deriving DecidableEq, Repr

/-- Modelled from the spec: `getTestCaseId` lives in the jest reporter's
`lib` package, which is not under `src/`.  Per the spec it is "derived from
runner-supplied stable test metadata (path + title chain), **not** from the
attempt/retry index", so it is modelled as a function of the spec path and
the title chain only, ignoring the invocation counter. -/
def getTestCaseId (specPath : String) (meta : AttemptMeta) : String :=
  specPath ++ ":" ++ String.intercalate ">" meta.titlePath

/-! ### Concrete example run data (instantiating the theorems) -/

/-- A passed jest attempt outcome. -/
def exPass : TestCaseResult := ⟨"passed", some 1, some 5, []⟩

/-- A failed jest attempt outcome. -/
def exFail : TestCaseResult := ⟨"failed", some 1, some 5, ["boom"]⟩

/-- Run-start event announcing one suite. -/
def exEvRun : JEvent := JEvent.runStart 1

/-- File-start for project `p`, spec `a.ts`. -/
def exEvFile : JEvent := JEvent.fileStart "p" "a.ts"

/-- Case-start for test `t1` of `a.ts`. -/
def exEvCase : JEvent :=
  JEvent.caseStart "a.ts" "t1" (some 100) ["s", "t"] none 100

/-- Passed case-result for test `t1` of `a.ts`. -/
def exEvResult : JEvent := JEvent.caseResult "a.ts" "t1" ["s", "t"] exPass

/-- The reporter state after a list of fully completed events (falls back to
the initial state if some handler failed or blocked). -/
def exState (evs : List JEvent) : RState :=
  (runEvents (initState 1) evs).getD (initState 1)

/-- Stage 0 of the file-start/case-start race: `onTestFileStart` is invoked
before `onRunStart` has resolved the run-level gate, so it records the
project id and suspends — `exRace0` is its published partial state. -/
def exRace0 : RState :=
  ((onTestFileStart (initState 1) "p" "a.ts").stateOf).getD (initState 1)

/-- Stage 1: while file-start is suspended, a case-start arrives and creates
the Spec Record for `p:a.ts` (with its test case) and the per-spec gate. -/
def exRace1 : RState :=
  onTestCaseStart exRace0 "a.ts" "t1" (some 100) ["s", "t"] none 100

/-- Stage 2: `onRunStart` completes and resolves the run-level gate. -/
def exRace2 : RState := ((onRunStart exRace1 1).stateOf).getD (initState 1)

/-- Stage 3: the suspended file-start resumes past its `await` (replayed here
from the top, which performs the identical writes) and installs a fresh Spec
Record over the case-created one. -/
def exRace3 : RState :=
  ((onTestFileStart exRace2 "p" "a.ts").stateOf).getD (initState 1)

/-- A test case whose attempts went failed, failed, passed (normal mode). -/
def exFlakyCase : TestCase :=
  { id := "t1",
    timestamps := [100, 110, 120],
    title := ["s", "t"],
    mode := none,
    result := [exFail, exFail, exPass],
    worker := ⟨1, 1⟩ }

/-- A test case with a single passed attempt (normal mode). -/
def exSinglePassCase : TestCase :=
  { id := "t1",
    timestamps := [100],
    title := ["s", "t"],
    mode := none,
    result := [exPass],
    worker := ⟨1, 1⟩ }

/-! ### Characterizing a completed case-result handler -/

/-- The project id the case handlers derive for a spec: what file-start
recorded, or the string `"undefined"` from JS interpolation of `undefined`. -/
def projectFor (s : RState) (specName : String) : String :=
  (s.projectBySpecMap specName).getD "undefined"

/-- The spec key a case handler computes from the current state. -/
def specKeyFor (s : RState) (specName : String) : String :=
  getSpecKey (projectFor s specName) specName

/-- The test-case key a case handler computes from the current state. -/
def caseKeyFor (s : RState) (specName testId : String) : String :=
  getTestCaseKey (projectFor s specName) specName testId

/-- The `TestCase` record currently stored for a test-case key. -/
def caseRecord (s : RState) (specName testId : String) : Option TestCase :=
  (s.specInfo (specKeyFor s specName)).bind
    (fun si => objGet si.testCaseList (caseKeyFor s specName testId))

/-- The `TestCase` record after `onTestCaseResult` for the key: the previous
record — or, if none, the synthesized skipped record — with the raw outcome
appended to `result`. -/
def pushedCase (envW : Int) (testId : String) (title : List String)
    (r : TestCaseResult) (prev : Option TestCase) : TestCase :=
  let tc0 : TestCase :=
    match prev with
    | none =>
      { id := testId,
        timestamps := [],
        title := title,
        mode := some "skip",
        result := [],
        worker := getWorker envW true }
    | some tc => tc
  { tc0 with result := tc0.result ++ [r] }

/-- The `TestCase` record after `onTestCaseStart` for the key: a fresh
record with the first timestamp if none existed, otherwise the previous
record with one timestamp appended (the repeat-attempt path); `result` is
untouched either way. -/
def startedCase (envW : Int) (testId : String) (startedAt : Option Nat)
    (title : List String) (mode : Option String) (now : Nat)
    (prev : Option TestCase) : TestCase :=
  match prev with
  | none =>
    { id := testId,
      timestamps := [startedAt.getD now],
      title := title,
      mode := mode,
      result := [],
      worker := getWorker envW false }
  | some tc => { tc with timestamps := tc.timestamps ++ [startedAt.getD now] }

/-- Events that describe one logical test case: a case-start or case-result
for this spec and test id, with arbitrary payloads (start times, titles,
modes, attempt outcomes). -/
def isCaseEventFor (specName testId : String) : JEvent → Bool
  | JEvent.caseStart n t _ _ _ _ => decide (n = specName) && decide (t = testId)
  | JEvent.caseResult n t _ _ => decide (n = specName) && decide (t = testId)
  | _ => false

/-- The number of case-result events (attempt outcomes) in a sequence. -/
def countResults (evs : List JEvent) : Nat :=
  (evs.filter (fun e =>
    match e with
    | JEvent.caseResult _ _ _ _ => true
    | _ => false)).length

/-- Failed case-result for test `t1` of `a.ts`. -/
def exEvResultFail : JEvent := JEvent.caseResult "a.ts" "t1" ["s", "t"] exFail

/-- The canonical retry flow for `t1`: start/result per attempt, with
outcomes failed, failed, passed — three attempts in total. -/
def exRetrySeq : List JEvent :=
  [exEvCase, exEvResultFail, exEvCase, exEvResultFail, exEvCase, exEvResult]

/-! ### The gate invariant

Every gate the reporter ever installs in one of its three keyed `Deferred`
maps is resolved in the same synchronous block that created it, so an
existing gate is always resolved, a per-spec gate always has its Spec Record,
and the total number of `resolve()` calls on a slot equals the number of
`Deferred` objects ever installed there (each object is resolved exactly
once). -/

structure GoodState (s : RState) : Prop where
  specGateRecord : ∀ k, (s.specInfoDeferred k).createCount ≠ 0 →
    (s.specInfo k).isSome = true
  specGateResolved : ∀ k, (s.specInfoDeferred k).createCount ≠ 0 →
    (s.specInfoDeferred k).resolved = true
  caseGateResolved : ∀ k, (s.testCaseDeferred k).createCount ≠ 0 →
    (s.testCaseDeferred k).resolved = true
  specGateOnce : ∀ k, (s.specInfoDeferred k).resolveCount =
    (s.specInfoDeferred k).createCount
  caseGateOnce : ∀ k, (s.testCaseDeferred k).resolveCount =
    (s.testCaseDeferred k).createCount
  resultsGateOnce : ∀ k, (s.resultsDeferred k).resolveCount =
    (s.resultsDeferred k).createCount


/-! ### Map and gate lemmas -/

theorem objGet_objSet_self {α : Type} (m : List (String × α)) (k : String)
    (v : α) : objGet (objSet m k v) k = some v := by
  induction m with
  | nil => simp [objGet, objSet]
  | cons p rest ih =>
    obtain ⟨k2, v2⟩ := p
    by_cases h : k2 = k
    · simp [objSet, objGet, h]
    · simp [objSet, objGet, h, ih]

theorem objGet_objSet_ne {α : Type} (m : List (String × α)) (k k2 : String)
    (v : α) (h : k2 ≠ k) : objGet (objSet m k v) k2 = objGet m k2 := by
  induction m with
  | nil => simp [objGet, objSet, Ne.symm h]
  | cons p rest ih =>
    obtain ⟨k3, v3⟩ := p
    by_cases h3 : k3 = k
    · subst h3
      simp [objSet, objGet, Ne.symm h]
    · simp only [objSet, if_neg h3, objGet]
      by_cases h2 : k3 = k2 <;> simp [h2, ih]

theorem gmUpdate_apply (m : GateMap) (k k2 : String) (f : GateStat → GateStat) :
    gmUpdate m k f k2 = if k2 = k then f (m k) else m k2 := rfl

theorem GateStat.fresh_resolveIt (g : GateStat) :
    g.fresh.resolveIt = ⟨g.createCount + 1, g.resolveCount + 1, true⟩ := rfl

theorem goodState_init (w : Int) : GoodState (initState w) := by
  constructor <;> intro k <;> simp [initState, GateStat.initial]

theorem goodState_onRunStart (s : RState) (n : Nat) (s2 : RState)
    (hG : GoodState s) (h : (onRunStart s n).stateOf = some s2) :
    GoodState s2 := by
  simp only [onRunStart, HResult.stateOf, Option.some.injEq] at h
  subst h
  exact ⟨hG.specGateRecord, hG.specGateResolved, hG.caseGateResolved,
    hG.specGateOnce, hG.caseGateOnce, hG.resultsGateOnce⟩

theorem goodState_onTestFileStart (s : RState) (projectId specName : String)
    (s2 : RState) (hG : GoodState s)
    (h : (onTestFileStart s projectId specName).stateOf = some s2) :
    GoodState s2 := by
  simp only [onTestFileStart] at h
  split at h
  · -- blocked on the run-level gate: only `projectBySpecMap` changed
    simp only [HResult.stateOf, Option.some.injEq] at h
    subst h
    exact ⟨hG.specGateRecord, hG.specGateResolved, hG.caseGateResolved,
      hG.specGateOnce, hG.caseGateOnce, hG.resultsGateOnce⟩
  · simp only [HResult.stateOf, Option.some.injEq] at h
    subst h
    refine ⟨?_, ?_, hG.caseGateResolved, ?_, hG.caseGateOnce,
      hG.resultsGateOnce⟩
    · intro k hc
      by_cases hk : k = getSpecKey projectId specName
      · simp [hk]
      · simp only [gmUpdate_apply, if_neg hk] at hc
        simpa [hk] using hG.specGateRecord k hc
    · intro k hc
      by_cases hk : k = getSpecKey projectId specName
      · simp [gmUpdate_apply, hk, GateStat.fresh_resolveIt]
      · simp only [gmUpdate_apply, if_neg hk] at hc ⊢
        exact hG.specGateResolved k hc
    · intro k
      by_cases hk : k = getSpecKey projectId specName
      · simp [gmUpdate_apply, hk, GateStat.fresh_resolveIt, hG.specGateOnce]
      · simp only [gmUpdate_apply, if_neg hk]
        exact hG.specGateOnce k

theorem goodState_fields (s t : RState) (hG : GoodState s)
    (h1 : t.specInfo = s.specInfo)
    (h2 : t.specInfoDeferred = s.specInfoDeferred)
    (h3 : t.testCaseDeferred = s.testCaseDeferred)
    (h4 : t.resultsDeferred = s.resultsDeferred) : GoodState t := by
  constructor
  · intro k
    rw [h2, h1]
    exact hG.specGateRecord k
  · intro k
    rw [h2]
    exact hG.specGateResolved k
  · intro k
    rw [h3]
    exact hG.caseGateResolved k
  · intro k
    rw [h2]
    exact hG.specGateOnce k
  · intro k
    rw [h3]
    exact hG.caseGateOnce k
  · intro k
    rw [h4]
    exact hG.resultsGateOnce k

theorem good_update_specInfo (s : RState) (K : String) (si : SpecInfo)
    (hG : GoodState s) :
    GoodState
      { s with specInfo := fun k => if k = K then some si else s.specInfo k } := by
  refine ⟨?_, hG.specGateResolved, hG.caseGateResolved, hG.specGateOnce,
    hG.caseGateOnce, hG.resultsGateOnce⟩
  intro k hc
  by_cases hk : k = K
  · simp [hk]
  · simpa [hk] using hG.specGateRecord k hc

theorem good_update_spec_both (s : RState) (K : String) (si : SpecInfo)
    (hG : GoodState s) :
    GoodState
      { s with
        specInfo := fun k => if k = K then some si else s.specInfo k,
        specInfoDeferred :=
          gmUpdate s.specInfoDeferred K (fun g => g.fresh.resolveIt) } := by
  refine ⟨?_, ?_, hG.caseGateResolved, ?_, hG.caseGateOnce, hG.resultsGateOnce⟩
  · intro k hc
    by_cases hk : k = K
    · simp [hk]
    · simp only [gmUpdate_apply, if_neg hk] at hc
      simpa [hk] using hG.specGateRecord k hc
  · intro k hc
    by_cases hk : k = K
    · simp [gmUpdate_apply, hk, GateStat.fresh_resolveIt]
    · simp only [gmUpdate_apply, if_neg hk] at hc ⊢
      exact hG.specGateResolved k hc
  · intro k
    by_cases hk : k = K
    · simp [gmUpdate_apply, hk, GateStat.fresh_resolveIt, hG.specGateOnce]
    · simp only [gmUpdate_apply, if_neg hk]
      exact hG.specGateOnce k

theorem good_update_caseGate (s : RState) (K : String) (hG : GoodState s) :
    GoodState
      { s with
        testCaseDeferred :=
          gmUpdate s.testCaseDeferred K (fun g => g.fresh.resolveIt) } := by
  refine ⟨hG.specGateRecord, hG.specGateResolved, ?_, hG.specGateOnce, ?_,
    hG.resultsGateOnce⟩
  · intro k hc
    by_cases hk : k = K
    · simp [gmUpdate_apply, hk, GateStat.fresh_resolveIt]
    · simp only [gmUpdate_apply, if_neg hk] at hc ⊢
      exact hG.caseGateResolved k hc
  · intro k
    by_cases hk : k = K
    · simp [gmUpdate_apply, hk, GateStat.fresh_resolveIt, hG.caseGateOnce]
    · simp only [gmUpdate_apply, if_neg hk]
      exact hG.caseGateOnce k

theorem good_update_resultsGate (s : RState) (K : String) (hG : GoodState s) :
    GoodState
      { s with
        resultsDeferred :=
          gmUpdate s.resultsDeferred K (fun g => g.fresh.resolveIt) } := by
  refine ⟨hG.specGateRecord, hG.specGateResolved, hG.caseGateResolved,
    hG.specGateOnce, hG.caseGateOnce, ?_⟩
  intro k
  by_cases hk : k = K
  · simp [gmUpdate_apply, hk, GateStat.fresh_resolveIt, hG.resultsGateOnce]
  · simp only [gmUpdate_apply, if_neg hk]
    exact hG.resultsGateOnce k

theorem goodState_onTestCaseStart (s : RState) (specName testId : String)
    (startedAt : Option Nat) (title : List String) (mode : Option String)
    (now : Nat) (hG : GoodState s) :
    GoodState (onTestCaseStart s specName testId startedAt title mode now) := by
  rcases hsi : s.specInfo
      (getSpecKey ((s.projectBySpecMap specName).getD "undefined") specName)
    with _ | si
  · simp only [onTestCaseStart, hsi]
    exact good_update_caseGate _ _
      (good_update_specInfo _ _ _ (good_update_spec_both _ _ _ hG))
  · simp only [onTestCaseStart, hsi]
    rcases hobj : objGet si.testCaseList
        (getTestCaseKey ((s.projectBySpecMap specName).getD "undefined")
          specName testId) with _ | tc
    · simp only [hobj]
      exact good_update_caseGate _ _ (good_update_specInfo _ _ _ hG)
    · simp only [hobj]
      exact good_update_specInfo _ _ _ hG

theorem goodState_onTestCaseResult (s : RState) (specName testId : String)
    (title : List String) (r : TestCaseResult) (s2 : RState) (hG : GoodState s)
    (h : (onTestCaseResult s specName testId title r).stateOf = some s2) :
    GoodState s2 := by
  simp only [onTestCaseResult] at h
  split at h
  · simp [HResult.stateOf] at h
  · split at h
    · simp only [HResult.stateOf, Option.some.injEq] at h
      subst h
      exact hG
    · by_cases hc : (s.testCaseDeferred
          (getTestCaseKey ((s.projectBySpecMap specName).getD "undefined")
            specName testId)).createCount = 0
      · simp only [if_pos hc] at h
        split at h
        · simp only [HResult.stateOf, Option.some.injEq] at h
          subst h
          exact good_update_caseGate _ _ hG
        · split at h
          · simp [HResult.stateOf] at h
          · simp only [HResult.stateOf, Option.some.injEq] at h
            subst h
            exact good_update_resultsGate _ _
              (good_update_specInfo _ _ _ (good_update_caseGate _ _ hG))
      · simp only [if_neg hc] at h
        split at h
        · simp only [HResult.stateOf, Option.some.injEq] at h
          subst h
          exact hG
        · split at h
          · simp [HResult.stateOf] at h
          · simp only [HResult.stateOf, Option.some.injEq] at h
            subst h
            exact good_update_resultsGate _ _ (good_update_specInfo _ _ _ hG)

theorem goodState_onTestFileResult (s : RState) (specName : String)
    (fr : FileResult) (s2 : RState) (hG : GoodState s)
    (h : (onTestFileResult s specName fr).stateOf = some s2) : GoodState s2 := by
  simp only [onTestFileResult] at h
  split at h
  · simp [HResult.stateOf] at h
  · split at h
    · simp [HResult.stateOf] at h
    · split at h
      · simp only [HResult.stateOf, Option.some.injEq] at h
        subst h
        exact good_update_specInfo _ _ _ hG
      · simp only [HResult.stateOf, Option.some.injEq] at h
        subst h
        exact goodState_fields _ _ (good_update_specInfo _ _ _ hG) rfl rfl rfl rfl

theorem goodState_step (s : RState) (e : JEvent) (s2 : RState) (hG : GoodState s)
    (h : (stepEvent s e).stateOf = some s2) : GoodState s2 := by
  cases e with
  | runStart n => exact goodState_onRunStart s n s2 hG h
  | fileStart projectId specName =>
    exact goodState_onTestFileStart s projectId specName s2 hG h
  | caseStart specName testId startedAt title mode now =>
    simp only [stepEvent, HResult.stateOf, Option.some.injEq] at h
    rw [← h]
    exact goodState_onTestCaseStart s specName testId startedAt title mode now hG
  | caseResult specName testId title r =>
    exact goodState_onTestCaseResult s specName testId title r s2 hG h
  | fileResult specName fr => exact goodState_onTestFileResult s specName fr s2 hG h

theorem reach_good {s : RState} (h : Reach s) : GoodState s := by
  induction h with
  | init w => exact goodState_init w
  | stepOk hs hstep ih =>
    exact goodState_step _ _ _ ih (by rw [hstep]; rfl)
  | stepBlocked hs hstep ih =>
    exact goodState_step _ _ _ ih (by rw [hstep]; rfl)

theorem onTestCaseResult_ok (s : RState) (specName testId : String)
    (title : List String) (r : TestCaseResult) (hG : GoodState s)
    (hgate : (s.specInfoDeferred (specKeyFor s specName)).createCount ≠ 0) :
    ∃ si s2,
      s.specInfo (specKeyFor s specName) = some si ∧
      onTestCaseResult s specName testId title r = HResult.ok s2 ∧
      s2.projectBySpecMap = s.projectBySpecMap ∧
      s2.specInfoDeferred = s.specInfoDeferred ∧
      s2.envWorkerId = s.envWorkerId ∧
      s2.specInfo (specKeyFor s specName) =
        some { si with
               testCaseList :=
                 objSet si.testCaseList (caseKeyFor s specName testId)
                   (pushedCase s.envWorkerId testId title r
                     (objGet si.testCaseList (caseKeyFor s specName testId))) } ∧
      (∀ k, k ≠ specKeyFor s specName → s2.specInfo k = s.specInfo k) := by
  have hres := hG.specGateResolved _ hgate
  have hsome := hG.specGateRecord _ hgate
  rw [Option.isSome_iff_exists] at hsome
  obtain ⟨si, hsi⟩ := hsome
  refine ⟨si, ?_⟩
  simp only [specKeyFor, projectFor, caseKeyFor] at hsi hres hgate ⊢
  by_cases hc : (s.testCaseDeferred
      (getTestCaseKey ((s.projectBySpecMap specName).getD "undefined")
        specName testId)).createCount = 0
  · simp only [onTestCaseResult, if_neg hgate, if_neg (not_not_intro hres),
      if_pos hc, gmUpdate_apply, if_pos (Eq.refl _), GateStat.fresh_resolveIt,
      hsi, pushedCase]
    refine ⟨_, trivial, rfl, rfl, rfl, rfl, by simp, ?_⟩
    intro k hk
    simp [if_neg hk]
  · have hcres := hG.caseGateResolved _ hc
    simp only [onTestCaseResult, if_neg hgate, if_neg (not_not_intro hres),
      if_neg hc, if_neg (not_not_intro hcres), hsi, pushedCase]
    refine ⟨_, trivial, rfl, rfl, rfl, rfl, by simp, ?_⟩
    intro k hk
    simp [if_neg hk]

/-- Iterating a completed `onTestCaseResult` for the same test-case key
appends exactly one attempt per event and leaves the spec bookkeeping (the
project map and the per-spec gate) intact. -/
theorem iter_caseResult (specName testId : String) (title : List String)
    (r : TestCaseResult) :
    ∀ (N : Nat) (s : RState), GoodState s →
      (s.specInfoDeferred (specKeyFor s specName)).createCount ≠ 0 →
      ∀ k0,
        (caseRecord s specName testId).map (fun tc => tc.result.length) =
          some k0 →
      ∃ s2,
        runEvents s
            (List.replicate N (JEvent.caseResult specName testId title r)) =
          some s2 ∧
        GoodState s2 ∧
        s2.projectBySpecMap = s.projectBySpecMap ∧
        (s2.specInfoDeferred (specKeyFor s2 specName)).createCount ≠ 0 ∧
        (caseRecord s2 specName testId).map (fun tc => tc.result.length) =
          some (k0 + N) := by
  intro N
  induction N with
  | zero =>
    intro s hG hgate k0 hk0
    exact ⟨s, by simp [runEvents], hG, rfl, hgate, by simpa using hk0⟩
  | succ M ih =>
    intro s hG hgate k0 hk0
    obtain ⟨si, s1, hsi, hok, hproj, hdef, henv, hat, hother⟩ :=
      onTestCaseResult_ok s specName testId title r hG hgate
    have hskey : specKeyFor s1 specName = specKeyFor s specName := by
      simp [specKeyFor, projectFor, hproj]
    have hckey : caseKeyFor s1 specName testId = caseKeyFor s specName testId := by
      simp [caseKeyFor, projectFor, hproj]
    have hG1 : GoodState s1 :=
      goodState_onTestCaseResult s specName testId title r s1 hG (by rw [hok]; rfl)
    have hgate1 : (s1.specInfoDeferred (specKeyFor s1 specName)).createCount ≠ 0 := by
      rw [hskey, hdef]
      exact hgate
    have hrec : caseRecord s specName testId =
        objGet si.testCaseList (caseKeyFor s specName testId) := by
      simp [caseRecord, hsi]
    have hcase1 : (caseRecord s1 specName testId).map (fun tc => tc.result.length) =
        some (k0 + 1) := by
      simp only [caseRecord, hskey, hckey, hat, Option.some_bind']
      rw [objGet_objSet_self]
      rw [hrec] at hk0
      rcases hobj : objGet si.testCaseList (caseKeyFor s specName testId) with _ | tc
      · rw [hobj] at hk0
        simp at hk0
      · rw [hobj] at hk0
        simp only [Option.map_some', Option.some.injEq] at hk0
        simp [pushedCase, hk0]
    obtain ⟨s2, h1, h2, h3, h4, h5⟩ := ih s1 hG1 hgate1 (k0 + 1) hcase1
    refine ⟨s2, ?_, h2, by rw [h3, hproj], h4, ?_⟩
    · rw [List.replicate_succ]
      simp only [runEvents, stepEvent, hok]
      exact h1
    · rw [h5]
      congr 1
      omega

theorem pushedCase_result_length (envW : Int) (testId : String)
    (title : List String) (r : TestCaseResult) (prev : Option TestCase) :
    (pushedCase envW testId title r prev).result.length =
      ((prev.map (fun tc => tc.result.length)).getD 0) + 1 := by
  cases prev <;> simp [pushedCase]

theorem startedCase_result_length (envW : Int) (testId : String)
    (startedAt : Option Nat) (title : List String) (mode : Option String)
    (now : Nat) (prev : Option TestCase) :
    (startedCase envW testId startedAt title mode now prev).result.length =
      (prev.map (fun tc => tc.result.length)).getD 0 := by
  cases prev <;> simp [startedCase]

/-- A case-start always completes; it preserves the project map, keeps the
per-spec gate present, and leaves the record for its key as `startedCase` of
the previous record (creating it with no attempts, or appending a timestamp
on a repeat attempt). -/
theorem onTestCaseStart_char (s : RState) (specName testId : String)
    (startedAt : Option Nat) (title : List String) (mode : Option String)
    (now : Nat) :
    (onTestCaseStart s specName testId startedAt title mode
        now).projectBySpecMap = s.projectBySpecMap ∧
    ((s.specInfoDeferred (specKeyFor s specName)).createCount ≠ 0 →
      ((onTestCaseStart s specName testId startedAt title mode
          now).specInfoDeferred (specKeyFor s specName)).createCount ≠ 0) ∧
    caseRecord (onTestCaseStart s specName testId startedAt title mode now)
        specName testId =
      some (startedCase s.envWorkerId testId startedAt title mode now
        (caseRecord s specName testId)) := by
  rcases hsi : s.specInfo
      (getSpecKey ((s.projectBySpecMap specName).getD "undefined") specName)
    with _ | si
  · simp only [onTestCaseStart, hsi]
    refine ⟨rfl, fun h => ?_, ?_⟩
    · simp [specKeyFor, projectFor, gmUpdate_apply, GateStat.fresh_resolveIt,
        objGet]
    · simp [caseRecord, specKeyFor, projectFor, caseKeyFor, hsi, startedCase,
        Option.some_bind', objGet, objSet]
  · simp only [onTestCaseStart, hsi]
    rcases hobj : objGet si.testCaseList
        (getTestCaseKey ((s.projectBySpecMap specName).getD "undefined")
          specName testId) with _ | tc <;>
      simp [hobj, caseRecord, specKeyFor, projectFor, caseKeyFor, hsi,
        startedCase, Option.some_bind', objGet_objSet_self]

/-- Processing any sequence of case events (case-starts and case-results,
arbitrary payloads) for one logical test from a good state with the per-spec
gate present completes, preserves the project map and the gate, and leaves
the record for the key with one appended attempt per case-result event in
the sequence. -/
theorem iter_caseEvents (specName testId : String) :
    ∀ (evs : List JEvent) (s : RState), GoodState s →
      (∀ e ∈ evs, isCaseEventFor specName testId e = true) →
      (s.specInfoDeferred (specKeyFor s specName)).createCount ≠ 0 →
      ∀ lopt,
        (caseRecord s specName testId).map (fun tc => tc.result.length) =
          lopt →
      ∃ s2, runEvents s evs = some s2 ∧
        GoodState s2 ∧
        s2.projectBySpecMap = s.projectBySpecMap ∧
        (s2.specInfoDeferred (specKeyFor s2 specName)).createCount ≠ 0 ∧
        (caseRecord s2 specName testId).map (fun tc => tc.result.length) =
          (if evs = [] then lopt
           else some (lopt.getD 0 + countResults evs)) := by
  intro evs
  induction evs with
  | nil =>
    intro s hG hall hgate lopt hlopt
    exact ⟨s, by simp [runEvents], hG, rfl, hgate, by simpa using hlopt⟩
  | cons e rest ih =>
    intro s hG hall hgate lopt hlopt
    have hrest : ∀ e2 ∈ rest, isCaseEventFor specName testId e2 = true :=
      fun e2 h2 => hall e2 (List.mem_cons_of_mem e h2)
    have he := hall e (List.mem_cons_self e rest)
    cases e with
    | runStart n => simp [isCaseEventFor] at he
    | fileStart projectId n => simp [isCaseEventFor] at he
    | fileResult n fr => simp [isCaseEventFor] at he
    | caseStart n t st ti m now =>
      simp only [isCaseEventFor, Bool.and_eq_true, decide_eq_true_eq] at he
      obtain ⟨rfl, rfl⟩ := he
      obtain ⟨hproj, hgateimp, hrec⟩ :=
        onTestCaseStart_char s n t st ti m now
      have hG1 : GoodState (onTestCaseStart s n t st ti m now) :=
        goodState_onTestCaseStart s n t st ti m now hG
      have hskey1 : specKeyFor (onTestCaseStart s n t st ti m now) n =
          specKeyFor s n := by
        simp [specKeyFor, projectFor, hproj]
      have hgate1 : ((onTestCaseStart s n t st ti m now).specInfoDeferred
          (specKeyFor (onTestCaseStart s n t st ti m now) n)).createCount ≠ 0 := by
        rw [hskey1]
        exact hgateimp hgate
      have hlen1 : (caseRecord (onTestCaseStart s n t st ti m now) n t).map
          (fun tc => tc.result.length) = some (lopt.getD 0) := by
        rw [hrec]
        simp only [Option.map_some']
        rw [startedCase_result_length, hlopt]
      obtain ⟨s2, h1, h2, h3, h4, h5⟩ :=
        ih (onTestCaseStart s n t st ti m now) hG1 hrest hgate1
          (some (lopt.getD 0)) hlen1
      refine ⟨s2, ?_, h2, h3.trans hproj, h4, ?_⟩
      · simp only [runEvents, stepEvent]
        exact h1
      · rw [h5]
        by_cases hre : rest = []
        · subst hre
          simp [countResults]
        · simp only [if_neg hre, if_neg (List.cons_ne_nil _ _)]
          simp [countResults]
    | caseResult n t ti r =>
      simp only [isCaseEventFor, Bool.and_eq_true, decide_eq_true_eq] at he
      obtain ⟨rfl, rfl⟩ := he
      obtain ⟨si, s1, hsi, hok, hproj, hdef, henv, hat, hother⟩ :=
        onTestCaseResult_ok s n t ti r hG hgate
      have hG1 : GoodState s1 :=
        goodState_onTestCaseResult s n t ti r s1 hG (by rw [hok]; rfl)
      have hskey1 : specKeyFor s1 n = specKeyFor s n := by
        simp [specKeyFor, projectFor, hproj]
      have hckey1 : caseKeyFor s1 n t = caseKeyFor s n t := by
        simp [caseKeyFor, projectFor, hproj]
      have hgate1 : (s1.specInfoDeferred (specKeyFor s1 n)).createCount ≠ 0 := by
        rw [hskey1, hdef]
        exact hgate
      have hrecs : caseRecord s n t =
          objGet si.testCaseList (caseKeyFor s n t) := by
        simp [caseRecord, hsi]
      have hlen1 : (caseRecord s1 n t).map (fun tc => tc.result.length) =
          some (lopt.getD 0 + 1) := by
        simp only [caseRecord, hskey1, hckey1, hat, Option.some_bind']
        rw [objGet_objSet_self]
        simp only [Option.map_some']
        rw [pushedCase_result_length, ← hrecs, hlopt]
      obtain ⟨s2, h1, h2, h3, h4, h5⟩ :=
        ih s1 hG1 hrest hgate1 (some (lopt.getD 0 + 1)) hlen1
      refine ⟨s2, ?_, h2, h3.trans hproj, h4, ?_⟩
      · simp only [runEvents, stepEvent, hok]
        exact h1
      · rw [h5]
        by_cases hre : rest = []
        · subst hre
          simp [countResults]
        · simp only [if_neg hre, if_neg (List.cons_ne_nil _ _)]
          have hcount : countResults
              (JEvent.caseResult n t ti r :: rest) = countResults rest + 1 := by
            simp [countResults]
          rw [hcount]
          simp only [Option.getD_some]
          congr 1
          omega

/-! ### Claim theorems -/

/-- C6: for every attempt list, `isFlaky` is true if and only if the list
contains more than one attempt and the last attempt's outcome is passed. -/
theorem C6_isFlaky_iff (results : List TestCaseResult) :
    isFlaky results = true ↔
      1 < results.length ∧
        (results.getLast?).map (fun r => r.status) = some "passed" := by
  rcases h : results.getLast? with _ | r <;>
    simp [isFlaky, h, TestState.str]

/-- C7: on a non-empty attempt list whose statuses all agree, the raw status
maps skipped/todo/pending/disabled to Skipped, passed to Passed, failed to
Failed; any other (unexpected) status kind falls through to the Failed
default rather than throwing, so a status is always produced. -/
theorem C7_rawStatus_uniform (results : List TestCaseResult) (s0 : String)
    (hne : results ≠ []) (hall : ∀ r ∈ results, r.status = s0) :
    ((s0 = "skipped" ∨ s0 = "todo" ∨ s0 = "pending" ∨ s0 = "disabled") →
      getRawTestStatus results = TestExpectedStatus.Skipped) ∧
    (s0 = "passed" → getRawTestStatus results = TestExpectedStatus.Passed) ∧
    (s0 = "failed" → getRawTestStatus results = TestExpectedStatus.Failed) ∧
    (s0 ∉ ["skipped", "todo", "pending", "disabled", "passed", "failed"] →
      getRawTestStatus results = TestExpectedStatus.Failed) := by
  rcases results with _ | ⟨r, rest⟩
  · exact absurd rfl hne
  · have hr : r.status = s0 := hall r (by simp)
    have key : getRawTestStatus (r :: rest) =
        (if s0 = "disabled" ∨ s0 = "skipped" ∨ s0 = "todo" ∨ s0 = "pending" then
          TestExpectedStatus.Skipped
         else if s0 = "passed" then TestExpectedStatus.Passed
         else if s0 = "failed" then TestExpectedStatus.Failed
         else TestExpectedStatus.Failed) := by
      have hAll : ((r.status :: rest.map (fun x => x.status)).all
          (fun s => decide (s = r.status))) = true := by
        simp only [List.all_eq_true]
        intro s hs
        simp only [List.mem_cons, List.mem_map] at hs
        rcases hs with h1 | ⟨r2, hr2, rfl⟩
        · simp [h1]
        · simp [hall r2 (List.mem_cons_of_mem r hr2), hr]
      simp only [getRawTestStatus, List.map_cons]
      rw [if_pos hAll, hr]
    refine ⟨fun h => ?_, fun h => ?_, fun h => ?_, fun h => ?_⟩ <;> rw [key]
    · rcases h with h | h | h | h <;> subst h <;> decide
    · subst h
      decide
    · subst h
      decide
    · simp only [List.mem_cons, List.mem_singleton, not_or] at h
      obtain ⟨h1, h2, h3, h4, h5, h6⟩ := h
      simp [h1, h2, h3, h4, h5, h6]

/-- C7 witness: a uniform todo attempt maps to Skipped, and an unexpected
kind (focused) falls through to the Failed default. -/
theorem C7_witness :
    getRawTestStatus [⟨"todo", none, none, []⟩] = TestExpectedStatus.Skipped ∧
    getRawTestStatus [⟨"focused", none, none, []⟩] =
      TestExpectedStatus.Failed := by
  refine ⟨(C7_rawStatus_uniform [⟨"todo", none, none, []⟩] "todo" (by decide)
      (by decide)).1 (by decide),
    (C7_rawStatus_uniform [⟨"focused", none, none, []⟩] "focused" (by decide)
      (by decide)).2.2.2 (by decide)⟩

/-- C8: in every report test row, `retries` equals the attempt count plus
one; in particular a single passed attempt is reported with `retries = 2` and
one attempt. -/
theorem C8_retries_off_by_one (specStart : Nat) (specName : String)
    (tc : TestCase) :
    (buildTestEntry specStart specName tc).retries =
      (buildTestEntry specStart specName tc).attempts.length + 1 ∧
    (tc.result.length = 1 →
      (buildTestEntry specStart specName tc).retries = 2 ∧
      (buildTestEntry specStart specName tc).attempts.length = 1) := by
  have hlen : (buildTestEntry specStart specName tc).attempts.length =
      tc.result.length := by
    simp [buildTestEntry]
  refine ⟨by rw [hlen]; rfl, fun h1 => ⟨?_, by rw [hlen, h1]⟩⟩
  show tc.result.length + 1 = 2
  rw [h1]

/-- C8 witness: a concrete single-pass test case has `retries = 2` and one
reported attempt. -/
theorem C8_witness :
    (buildTestEntry 50 "a.ts" exSinglePassCase).retries = 2 ∧
    (buildTestEntry 50 "a.ts" exSinglePassCase).attempts.length = 1 :=
  (C8_retries_off_by_one 50 "a.ts" exSinglePassCase).2 (by decide)

/-- C10: every assembled per-spec report has `stats.pending = 0` and
`stats.skipped` equal to the runner's pending-test count plus todo-test
count. -/
theorem C10_stats_pending_skipped (si : SpecInfo) (fr : FileResult) :
    (buildInstanceReport si fr).results.stats.pending = 0 ∧
    (buildInstanceReport si fr).results.stats.skipped =
      fr.numPendingTests + fr.numTodoTests :=
  ⟨rfl, rfl⟩

/-- C1 counterexample: file-start runs its opening write, suspends on the
run-level gate, a case-start creates the Spec Record for `p:a.ts` with one
accumulated test case, the run-level gate resolves, and the file-start
continuation runs — afterwards the Spec Record's `testCaseList` is empty, so
the handler was not a no-op that left the record unchanged. -/
theorem C1_counterexample :
    (exRace1.specInfo "p:a.ts").map (fun si => si.testCaseList.length) =
      some 1 ∧
    (exRace3.specInfo "p:a.ts").map (fun si => si.testCaseList.length) =
      some 0 := by
  decide

/-- C1 (amended): a file-started event whose run-level await has been
satisfied is never a no-op — it unconditionally replaces whatever Spec
Record exists for its key by a fresh one with an empty `testCaseList`, and
installs a fresh (immediately resolved) per-spec gate; records under other
keys are untouched, so the store still holds at most one record per key. -/
theorem C1_fileStart_overwrites (s : RState) (projectId specName : String)
    (h : s.reportDirGate.resolved = true) :
    ∃ s2, onTestFileStart s projectId specName = HResult.ok s2 ∧
      s2.specInfo (getSpecKey projectId specName) =
        some
          { projectId := projectId,
            specName := specName,
            testCaseList := [],
            specResult := none,
            worker := getWorker s.envWorkerId false } ∧
      s2.specInfoDeferred (getSpecKey projectId specName) =
        ((s.specInfoDeferred (getSpecKey projectId specName)).fresh).resolveIt ∧
      (∀ k, k ≠ getSpecKey projectId specName → s2.specInfo k = s.specInfo k) := by
  simp only [onTestFileStart, if_neg (not_not_intro h)]
  refine ⟨_, rfl, by simp, by simp [gmUpdate_apply], ?_⟩
  intro k hk
  simp [if_neg hk]

/-- C1 witness: instantiating the overwrite theorem after run-start. -/
theorem C1_witness :
    ((onTestFileStart (exState [exEvRun]) "p" "a.ts").stateOf.getD
        (initState 1)).specInfo (getSpecKey "p" "a.ts") =
      some
        { projectId := "p",
          specName := "a.ts",
          testCaseList := [],
          specResult := none,
          worker := getWorker (exState [exEvRun]).envWorkerId false } := by
  obtain ⟨s2, h1, h2, h3, h4⟩ :=
    C1_fileStart_overwrites (exState [exEvRun]) "p" "a.ts" (by decide)
  rw [h1]
  exact h2

/-- C2 counterexample: for the attempts failed, failed, passed (normal mode)
the report row is flaky, but its `state` is Failed — not Passed as claimed —
and its `expectedStatus` is Passed — not Failed as claimed. -/
theorem C2_counterexample :
    (buildTestEntry 50 "a.ts" exFlakyCase).isFlaky = true ∧
    (buildTestEntry 50 "a.ts" exFlakyCase).state ≠ TestState.Passed ∧
    (buildTestEntry 50 "a.ts" exFlakyCase).expectedStatus ≠
      TestExpectedStatus.Failed := by
  decide

/-- C2 (amended): for attempts failed, failed, passed on a normal-mode test
the row has `isFlaky = true`, `state = Failed` (the mixed-status reduction)
and `expectedStatus = Passed` (mode-derived, not attempt-derived); for a
single passed attempt, `isFlaky = false` and `expectedStatus = Passed`. -/
theorem C2_flaky_entry (specStart : Nat) (specName : String)
    (tc tc2 : TestCase)
    (hs : tc.result.map (fun r => r.status) = ["failed", "failed", "passed"])
    (hm : tc.mode = none)
    (hs2 : tc2.result.map (fun r => r.status) = ["passed"])
    (hm2 : tc2.mode = none) :
    (buildTestEntry specStart specName tc).isFlaky = true ∧
    (buildTestEntry specStart specName tc).state = TestState.Failed ∧
    (buildTestEntry specStart specName tc).expectedStatus =
      TestExpectedStatus.Passed ∧
    (buildTestEntry specStart specName tc2).isFlaky = false ∧
    (buildTestEntry specStart specName tc2).expectedStatus =
      TestExpectedStatus.Passed := by
  rcases h3 : tc.result with _ | ⟨a, tl1⟩
  · rw [h3] at hs
    simp at hs
  rcases tl1 with _ | ⟨b, tl2⟩
  · rw [h3] at hs
    simp at hs
  rcases tl2 with _ | ⟨c, rest⟩
  · rw [h3] at hs
    simp at hs
  rw [h3] at hs
  simp only [List.map_cons, List.cons.injEq] at hs
  obtain ⟨ha, hb, hc, hrest⟩ := hs
  rw [List.map_eq_nil_iff] at hrest
  subst hrest
  rcases h4 : tc2.result with _ | ⟨d, rest2⟩
  · rw [h4] at hs2
    simp at hs2
  rw [h4] at hs2
  simp only [List.map_cons, List.cons.injEq] at hs2
  obtain ⟨hd, hrest2⟩ := hs2
  rw [List.map_eq_nil_iff] at hrest2
  subst hrest2
  have hraw : getRawTestStatus [a, b, c] = TestExpectedStatus.Failed := by
    simp only [getRawTestStatus, List.map_cons, List.map_nil, ha, hb, hc]
    rfl
  have hlast : ([a, b, c] : List TestCaseResult).getLast? = some c := rfl
  refine ⟨?_, ?_, ?_, ?_, ?_⟩
  · simp only [buildTestEntry, h3]
    simp [isFlaky, hlast, hc, TestState.str]
  · simp only [buildTestEntry, h3]
    simp [getTestCaseStatus, hraw, TestExpectedStatus.str, statusToCurrentsStatus]
  · simp [buildTestEntry, hm]
  · simp only [buildTestEntry, h4]
    simp [isFlaky]
  · simp [buildTestEntry, hm2]

/-- C2 witness: instantiating the amended row classification at the concrete
flaky and single-pass test cases. -/
theorem C2_witness :
    (buildTestEntry 50 "a.ts" exFlakyCase).state = TestState.Failed ∧
    (buildTestEntry 50 "a.ts" exSinglePassCase).expectedStatus =
      TestExpectedStatus.Passed := by
  have h := C2_flaky_entry 50 "a.ts" exFlakyCase exSinglePassCase (by decide)
    (by decide) (by decide) (by decide)
  exact ⟨h.2.1, h.2.2.2.2⟩

theorem reach_ex1 : Reach (exState [exEvRun]) := by
  have h : stepEvent (initState 1) exEvRun = HResult.ok (exState [exEvRun]) := rfl
  exact Reach.stepOk (Reach.init 1) h

theorem reach_ex2 : Reach (exState [exEvRun, exEvFile]) := by
  have h : stepEvent (exState [exEvRun]) exEvFile =
      HResult.ok (exState [exEvRun, exEvFile]) := rfl
  exact Reach.stepOk reach_ex1 h

/-- C3 counterexample: a case-result with no preceding case-start whose
runner outcome is `"passed"` (not marked skipped) still synthesizes the
Test Case Record flagged `mode = "skip"`, so it is not "recorded as
executed". -/
theorem C3_counterexample :
    (caseRecord (exState [exEvRun, exEvFile, exEvResult]) "a.ts" "t1").map
        (fun tc => tc.mode) = some (some "skip") ∧
    exPass.status = "passed" := by
  decide

/-- C3 (amended): a case-result with no preceding case-start (and an
existing per-spec gate) synthesizes exactly one Test Case Record holding
exactly the one arriving attempt — but it is always flagged `mode = "skip"`,
regardless of whether the runner marked the test as skipped. -/
theorem C3_synthesized_skip (s : RState) (specName testId : String)
    (title : List String) (r : TestCaseResult) (hR : Reach s)
    (hgate : (s.specInfoDeferred (specKeyFor s specName)).createCount ≠ 0)
    (hnone : caseRecord s specName testId = none) :
    ∃ s2, onTestCaseResult s specName testId title r = HResult.ok s2 ∧
      caseRecord s2 specName testId =
        some
          { id := testId,
            timestamps := [],
            title := title,
            mode := some "skip",
            result := [r],
            worker := getWorker s.envWorkerId true } := by
  obtain ⟨si, s2, hsi, hok, hproj, hdef, henv, hat, hother⟩ :=
    onTestCaseResult_ok s specName testId title r (reach_good hR) hgate
  have hobj : objGet si.testCaseList (caseKeyFor s specName testId) = none := by
    simp only [caseRecord, hsi, Option.some_bind'] at hnone
    exact hnone
  refine ⟨s2, hok, ?_⟩
  have hskey : specKeyFor s2 specName = specKeyFor s specName := by
    simp [specKeyFor, projectFor, hproj]
  have hckey : caseKeyFor s2 specName testId = caseKeyFor s specName testId := by
    simp [caseKeyFor, projectFor, hproj]
  simp only [caseRecord, hskey, hckey, hat, Option.some_bind']
  rw [objGet_objSet_self, hobj]
  simp [pushedCase]

/-- C3 witness: a passed case-result with no case-start, after run-start and
file-start, yields the synthesized skip-flagged one-attempt record. -/
theorem C3_witness :
    caseRecord
        ((onTestCaseResult (exState [exEvRun, exEvFile]) "a.ts" "t1"
            ["s", "t"] exPass).stateOf.getD (initState 1)) "a.ts" "t1" =
      some
        { id := "t1",
          timestamps := [],
          title := ["s", "t"],
          mode := some "skip",
          result := [exPass],
          worker := getWorker (exState [exEvRun, exEvFile]).envWorkerId true } := by
  obtain ⟨s2, h1, h2⟩ := C3_synthesized_skip (exState [exEvRun, exEvFile])
    "a.ts" "t1" ["s", "t"] exPass reach_ex2 (by decide) (by decide)
  rw [h1]
  exact h2

/-- C4 counterexample: the per-(case,attempt) completion gate for
`p:a.ts:t1` is created (and resolved) twice when two case-results arrive for
the same key, and the per-spec gate for `p:a.ts` is created twice when
file-start runs twice — gates are re-created, not "resolved exactly once and
never re-created". -/
theorem C4_counterexample :
    ((exState [exEvRun, exEvFile, exEvCase, exEvResult,
          exEvResult]).resultsDeferred "p:a.ts:t1").createCount = 2 ∧
    ((exState [exEvRun, exEvFile, exEvCase, exEvResult,
          exEvResult]).resultsDeferred "p:a.ts:t1").resolveCount = 2 ∧
    ((exState [exEvRun, exEvFile, exEvFile]).specInfoDeferred
        "p:a.ts").createCount = 2 := by
  decide

/-- C4 (amended): gates can be re-created — file-started installs a fresh
per-spec gate even when one exists, and every case-result installs a fresh
per-(case,attempt) gate — but every `Deferred` object ever installed in the
per-spec, per-case and per-case-result maps is resolved exactly once: in any
reachable state the total number of resolve calls for a key equals the
number of gates ever created for it. -/
theorem C4_gates_resolved_once (s : RState) (hR : Reach s) (k : String) :
    (s.specInfoDeferred k).resolveCount = (s.specInfoDeferred k).createCount ∧
    (s.testCaseDeferred k).resolveCount = (s.testCaseDeferred k).createCount ∧
    (s.resultsDeferred k).resolveCount = (s.resultsDeferred k).createCount := by
  have hG := reach_good hR
  exact ⟨hG.specGateOnce k, hG.caseGateOnce k, hG.resultsGateOnce k⟩

/-- C4 witness: the resolved-exactly-once accounting at a concrete reachable
state and key. -/
theorem C4_witness :
    ((exState [exEvRun, exEvFile]).specInfoDeferred "p:a.ts").resolveCount =
      ((exState [exEvRun, exEvFile]).specInfoDeferred "p:a.ts").createCount :=
  (C4_gates_resolved_once (exState [exEvRun, exEvFile]) reach_ex2 "p:a.ts").1

/-- C5 counterexample: a case-result arriving before both file-start and
case-start finds no per-spec gate; awaiting the `undefined` map entry
throws, so the handler does fail for lack of a per-spec gate. -/
theorem C5_counterexample :
    onTestCaseResult (exState [exEvRun]) "a.ts" "t1" ["s", "t"] exPass =
      HResult.jsError := rfl

/-- C5 (amended): provided the per-spec gate for the key exists (file-start
or case-start already ran for it), every case-result awaits it (already
resolved) and then finds an existing Spec Record, completing without error;
a case-result arriving before both file-start and case-start instead hits an
`undefined` gate and throws. -/
theorem C5_caseResult_finds_record (s : RState) (specName testId : String)
    (title : List String) (r : TestCaseResult) (hR : Reach s)
    (hgate : (s.specInfoDeferred (specKeyFor s specName)).createCount ≠ 0) :
    (s.specInfo (specKeyFor s specName)).isSome = true ∧
    ∃ s2, onTestCaseResult s specName testId title r = HResult.ok s2 := by
  obtain ⟨si, s2, hsi, hok, _⟩ :=
    onTestCaseResult_ok s specName testId title r (reach_good hR) hgate
  exact ⟨by rw [hsi]; rfl, s2, hok⟩

/-- C5 witness: after run-start and file-start, a case-result with no
case-start completes, the Spec Record existing. -/
theorem C5_witness :
    ((exState [exEvRun, exEvFile]).specInfo
        (specKeyFor (exState [exEvRun, exEvFile]) "a.ts")).isSome = true ∧
    ((onTestCaseResult (exState [exEvRun, exEvFile]) "a.ts" "t1" ["s", "t"]
        exPass).stateOf).isSome = true := by
  obtain ⟨h1, s2, h2⟩ := C5_caseResult_finds_record
    (exState [exEvRun, exEvFile]) "a.ts" "t1" ["s", "t"] exPass reach_ex2
    (by decide)
  exact ⟨h1, by rw [h2]; rfl⟩

/-- C9: the spec key is `projectId ++ ":" ++ specName` and the test-case key
is `specKey ++ ":" ++ testId`; the (spec-modelled) test id depends only on
the stable path and title chain, not on the invocation counter; and for
every non-empty sequence of events describing the same logical test —
case-starts and case-results for that spec and test id in any interleaving,
with arbitrary payloads and attempt outcomes — processed from any reachable
state with the per-spec gate present and no record yet, processing completes,
both keys are invariant, and the record's attempts list has length exactly N,
the number of case-result (attempt outcome) events in the sequence. -/
theorem C9_keys_and_attempts :
    (∀ projectId specName,
      getSpecKey projectId specName = projectId ++ ":" ++ specName) ∧
    (∀ projectId specName testId,
      getTestCaseKey projectId specName testId =
        getSpecKey projectId specName ++ ":" ++ testId) ∧
    (∀ specPath m1 m2, m1.titlePath = m2.titlePath →
      getTestCaseId specPath m1 = getTestCaseId specPath m2) ∧
    (∀ (s : RState) (specName testId : String) (evs : List JEvent),
      Reach s →
      (s.specInfoDeferred (specKeyFor s specName)).createCount ≠ 0 →
      caseRecord s specName testId = none →
      (∀ e ∈ evs, isCaseEventFor specName testId e = true) →
      evs ≠ [] →
      ∃ s2,
        runEvents s evs = some s2 ∧
        specKeyFor s2 specName = specKeyFor s specName ∧
        caseKeyFor s2 specName testId = caseKeyFor s specName testId ∧
        (caseRecord s2 specName testId).map (fun tc => tc.result.length) =
          some (countResults evs)) := by
  refine ⟨fun p n => rfl, fun p n t => rfl,
    fun sp m1 m2 h => by simp [getTestCaseId, h], ?_⟩
  intro s specName testId evs hR hgate hnone hall hne
  obtain ⟨s2, h1, h2, h3, h4, h5⟩ :=
    iter_caseEvents specName testId evs s (reach_good hR) hall hgate none
      (by rw [hnone]; rfl)
  refine ⟨s2, h1, ?_, ?_, ?_⟩
  · simp [specKeyFor, projectFor, h3]
  · simp [caseKeyFor, projectFor, h3]
  · rw [h5, if_neg hne]
    simp

/-- C9 witness: the canonical retry flow — case-start/case-result per
attempt, outcomes failed, failed, passed — after run-start and file-start
leaves the keys fixed and produces an attempts list of length three. -/
theorem C9_witness :
    getTestCaseKey "p" "a.ts" "t1" = getSpecKey "p" "a.ts" ++ ":" ++ "t1" ∧
    ((runEvents (exState [exEvRun, exEvFile]) exRetrySeq).bind
        (fun s2 =>
          (caseRecord s2 "a.ts" "t1").map (fun tc => tc.result.length))) =
      some 3 := by
  obtain ⟨s2, h1, h2, h3, h4⟩ := C9_keys_and_attempts.2.2.2
    (exState [exEvRun, exEvFile]) "a.ts" "t1" exRetrySeq reach_ex2
    (by decide) (by decide) (by decide) (by decide)
  refine ⟨C9_keys_and_attempts.2.1 "p" "a.ts" "t1", ?_⟩
  rw [h1, Option.some_bind', h4]
  decide

end CurrentsReporter
